import Mathlib

/-!
# trackingpixel: a verification development of `main.go`

The program is one HTTP handler, `HandleEverything.ServeHTTP`, and the `main`
function that configures it and starts the listener.

Embedding choices.

* Bytes are natural numbers (below 256); a `[]byte` is a `List Nat`.
* A Go `error` is kept by the text of its `Error()` method; the nil error is
  `none`.
* `http.Header` is `map[string][]string`.  It is a list of entries; ranging over
  the map visits the entries in list order, so a statement about one run that
  holds for every list holds for every iteration order.  Go fixes no order, and
  two runs may differ: two runs over the same map are two states whose lists
  are permutations of each other.
* `http.ResponseWriter` is an interface; the model is the writer the
  `net/http` server hands to a handler.  It keeps the header map that
  `Header()` returns, the response it has committed (the status passed to the
  first `WriteHeader` with a copy of the header map as it was at that call:
  later changes of the map do not reach the response), and takes the result of
  `Write` as a function of the bytes passed (the behaviour of the transport).
  At the body write the server gives a committed header without `Content-Type`
  the type it detects in the body.  Headers the server adds by itself apart
  from that (`Date`, `Content-Length`) are not modelled.  Every call on the
  writer, and every goroutine started, is recorded in a trace, and every call
  on the writer returns: a writer that panics (as this one does for a status
  outside 100-999) is outside the model.
* `go f(x)` is recorded as a trace entry: the goroutine is started, and what
  it does later is the callback applied to the recorded argument.
-/

set_option maxRecDepth 100000

namespace Trackingpixel

/-! ## Values of the standard library -/

/-- A Go `error`, kept by the text its `Error()` method returns. -/
structure GoError where
  text : String
deriving DecidableEq, Repr

/-- The token characters of RFC 7230, `validHeaderFieldByte` of `net/textproto`. -/
def validHeaderFieldByte (c : Char) : Bool :=
  c.isAlphanum || [33, 35, 36, 37, 38, 39, 42, 43, 45, 46, 94, 95, 96, 124, 126].contains c.toNat

/-- The rewriting loop of `canonicalMIMEHeaderKey`: the first letter and every
letter after a hyphen in upper case, every other letter in lower case. -/
def canonicalLoop : Bool → List Char → List Char
  | _, [] => []
  | upper, c :: cs =>
    let d := if upper then c.toUpper else c.toLower
    d :: canonicalLoop (d == '-') cs

/-- The function `textproto.CanonicalMIMEHeaderKey`: a key holding a space or a
byte that is no header field byte is returned as it is. -/
def CanonicalMIMEHeaderKey (s : String) : String :=
  if s.toList.all validHeaderFieldByte then String.mk (canonicalLoop true s.toList) else s

/-- The type `http.Header`, `map[string][]string`. -/
abbrev Header := List (String × List String)

/-- The map index `h[key]`. -/
def Header.lookup (h : Header) (key : String) : Option (List String) :=
  List.lookup key h

/-- The method `http.Header.Set`: `h[CanonicalMIMEHeaderKey(key)] = []string{value}`.
It replaces whatever values the key had. -/
def Header.Set (h : Header) (key value : String) : Header :=
  (CanonicalMIMEHeaderKey key, [value]) ::
    h.filter (fun e => e.1 != CanonicalMIMEHeaderKey key)

/-- The method `http.Header.Get`: the first value under the canonical key, and
the empty string when there is none. -/
def Header.Get (h : Header) (key : String) : String :=
  match h.lookup (CanonicalMIMEHeaderKey key) with
  | some (v :: _) => v
  | _ => ""

/-- The raw read `h.get(key)` of `net/http`: the first value under the key as
it is written, and the empty string when there is none. -/
def Header.get (h : Header) (key : String) : String :=
  match h.lookup key with
  | some (v :: _) => v
  | _ => ""

/-! ### `http.DetectContentType`

The matchers of `net/http/sniff.go` and its signature table as far as the PNG
entry.  `none` stands for whatever the rest of the table decides. -/

/-- The bytes of an ASCII text. -/
def asciiBytes (s : String) : List Nat := s.toList.map Char.toNat

/-- The whitespace bytes, `isWS`. -/
def isWS (b : Nat) : Bool := b == 9 || b == 10 || b == 12 || b == 13 || b == 32

/-- The tag-terminating bytes, `isTT`. -/
def isTT (b : Nat) : Bool := b == 32 || b == 62

/-- An entry of `sniffSignatures`. -/
inductive SniffSig where
  | htmlSig (sig : List Nat)
  | maskedSig (mask pat : List Nat) (skipWS : Bool) (ct : String)
  | exactSig (sig : List Nat) (ct : String)

/-- The loop of `htmlSig.match`: each byte of the data, with bit 5 cleared
where the signature has a capital letter, equals the byte of the signature. -/
def htmlBytesMatch : List Nat → List Nat → Bool
  | [], _ => true
  | _ :: _, [] => false
  | b :: sig, db :: data =>
    (b == if 65 ≤ b ∧ b ≤ 90 then db &&& 0xDF else db) && htmlBytesMatch sig data

/-- The loop of `maskedSig.match`: `data[i] & mask[i] == pat[i]`. -/
def maskedBytesMatch : List Nat → List Nat → List Nat → Bool
  | [], _, _ => true
  | _ :: _, [], _ => false
  | _ :: _, _ :: _, [] => false
  | pb :: pat, m :: mask, db :: data => (db &&& m == pb) && maskedBytesMatch pat mask data

/-- The method `match` of the three kinds of signature. -/
def SniffSig.matchData (data : List Nat) (firstNonWS : Nat) : SniffSig → Option String
  | SniffSig.htmlSig sig =>
    let d := data.drop firstNonWS
    if d.length < sig.length + 1 then none
    else if htmlBytesMatch sig d && isTT (d.getD sig.length 0) then
      some "text/html; charset=utf-8"
    else none
  | SniffSig.maskedSig mask pat skipWS ct =>
    let d := if skipWS then data.drop firstNonWS else data
    if pat.length ≠ mask.length then none
    else if d.length < pat.length then none
    else if maskedBytesMatch pat mask d then some ct
    else none
  | SniffSig.exactSig sig ct =>
    if data.take sig.length = sig ∧ sig.length ≤ data.length then some ct else none

/-- The table `sniffSignatures`, from its first entry to the PNG entry. -/
def sniffSignatures : List SniffSig :=
  [SniffSig.htmlSig (asciiBytes "<!DOCTYPE HTML"),
   SniffSig.htmlSig (asciiBytes "<HTML"),
   SniffSig.htmlSig (asciiBytes "<HEAD"),
   SniffSig.htmlSig (asciiBytes "<SCRIPT"),
   SniffSig.htmlSig (asciiBytes "<IFRAME"),
   SniffSig.htmlSig (asciiBytes "<H1"),
   SniffSig.htmlSig (asciiBytes "<DIV"),
   SniffSig.htmlSig (asciiBytes "<FONT"),
   SniffSig.htmlSig (asciiBytes "<TABLE"),
   SniffSig.htmlSig (asciiBytes "<A"),
   SniffSig.htmlSig (asciiBytes "<STYLE"),
   SniffSig.htmlSig (asciiBytes "<TITLE"),
   SniffSig.htmlSig (asciiBytes "<B"),
   SniffSig.htmlSig (asciiBytes "<BODY"),
   SniffSig.htmlSig (asciiBytes "<BR"),
   SniffSig.htmlSig (asciiBytes "<P"),
   SniffSig.htmlSig (asciiBytes "<!--"),
   SniffSig.maskedSig [255, 255, 255, 255, 255] (asciiBytes "<?xml") true
     "text/xml; charset=utf-8",
   SniffSig.exactSig (asciiBytes "%PDF-") "application/pdf",
   SniffSig.exactSig (asciiBytes "%!PS-Adobe-") "application/postscript",
   SniffSig.maskedSig [255, 255, 0, 0] [254, 255, 0, 0] false "text/plain; charset=utf-16be",
   SniffSig.maskedSig [255, 255, 0, 0] [255, 254, 0, 0] false "text/plain; charset=utf-16le",
   SniffSig.maskedSig [255, 255, 255, 0] [239, 187, 191, 0] false "text/plain; charset=utf-8",
   SniffSig.exactSig [0, 0, 1, 0] "image/x-icon",
   SniffSig.exactSig [0, 0, 2, 0] "image/x-icon",
   SniffSig.exactSig (asciiBytes "BM") "image/bmp",
   SniffSig.exactSig (asciiBytes "GIF87a") "image/gif",
   SniffSig.exactSig (asciiBytes "GIF89a") "image/gif",
   SniffSig.maskedSig [255, 255, 255, 255, 0, 0, 0, 0, 255, 255, 255, 255, 255, 255]
     (asciiBytes "RIFF" ++ [0, 0, 0, 0] ++ asciiBytes "WEBPVP") false "image/webp",
   SniffSig.exactSig [137, 80, 78, 71, 13, 10, 26, 10] "image/png"]

/-- The function `http.DetectContentType`, on the first 512 bytes: the type of
the first signature that matches. -/
def DetectContentType (data : List Nat) : Option String :=
  let d := data.take 512
  sniffSignatures.findSome? (SniffSig.matchData d (d.takeWhile isWS).length)

/-- The function `bodyAllowedForStatus`. -/
def bodyAllowedForStatus (status : Int) : Bool :=
  !((100 ≤ status && status ≤ 199) || status == 204 || status == 304)

/-- A `url.URL`, kept by the text its `String()` method returns. -/
structure URL where
  text : String
deriving DecidableEq, Repr

/-- The method `(*url.URL).String`. -/
def URL.String (u : URL) : String := u.text

/-- The fields of `http.Request` that a handler can read. -/
structure Request where
  Method : String
  URL : URL
  Header : Header
  Body : List Nat
  RemoteAddr : String
deriving DecidableEq, Repr

/-! ## The handler -/

/-- The struct `HandleEverything`.  A callback is kept by the log lines it
prints when it runs. -/
structure HandleEverything where
  Body : List Nat
  HandleError : GoError → List String
  Headers : Header
  HandleRequests : Request → List String
  Status : Int

/-- What `ServeHTTP` does to the outside, one entry per call. -/
inductive Effect where
  | WriteHeader (statusCode : Int)
  | HeaderSet (key value : String)
  | Write (p : List Nat)
  | GoHandleError (err : GoError)
  | GoHandleRequests (req : Request)
deriving DecidableEq, Repr

/-- The response writer of the server: the header map `Header()` returns, the
status and header it has committed for the response, if any, and what `Write`
returns for the bytes it is given (count written, error). -/
structure ResponseWriter where
  header : Header
  committed : Option (Int × Header)
  transport : List Nat → Nat × Option GoError

/-- The writer the server hands to a handler for a new request: an empty header
map and nothing committed. -/
def serverWriter (transport : List Nat → Nat × Option GoError) : ResponseWriter :=
  { header := [], committed := none, transport := transport }

/-- The method `WriteHeader` of the writer: the first call commits the status
with the header map as it is; a later call commits nothing. -/
def ResponseWriter.WriteHeader (w : ResponseWriter) (code : Int) : ResponseWriter :=
  match w.committed with
  | some _ => w
  | none => { w with committed := some (code, w.header) }

/-- The sniffing step of the server when it writes a body `p` under a committed
header: with a status that allows a body, no `Content-Type`, no
`Content-Encoding`, no `Transfer-Encoding` and a body that is not empty, the
header gets the type detected in the body.  Where the modelled part of the
signature table does not decide, nothing is added. -/
def sniffContentType (status : Int) (hdr : Header) (p : List Nat) : Header :=
  if bodyAllowedForStatus status ∧ hdr.lookup "Content-Type" = none ∧
      hdr.Get "Content-Encoding" = "" ∧ hdr.get "Transfer-Encoding" = "" ∧ p.length ≠ 0 then
    match DetectContentType p with
    | some ct => hdr ++ [("Content-Type", [ct])]
    | none => hdr
  else hdr

/-- The method `Write` of the writer, as far as the committed response goes: a
write before any `WriteHeader` commits status 200 first, and the committed
header goes through the sniffing step.  The server takes that step once, when
it sends the header with the first bytes of the body; `ServeHTTP` writes
once. -/
def ResponseWriter.Write (w : ResponseWriter) (p : List Nat) : ResponseWriter :=
  match (w.WriteHeader 200).committed with
  | some (status, hdr) =>
    { w with committed := some (status, sniffContentType status hdr p) }
  | none => w

/-- Everything `ServeHTTP` can reach: its receiver, the writer, and the trace of
what has been done so far. -/
structure State where
  h : HandleEverything
  writer : ResponseWriter
  trace : List Effect

/-- The call `writer.WriteHeader(code)`. -/
def State.WriteHeader (s : State) (code : Int) : State :=
  { s with
    writer := s.writer.WriteHeader code
    trace := s.trace ++ [Effect.WriteHeader code] }

/-- The call `writer.Header().Set(key, value)`. -/
def State.HeaderSet (s : State) (key value : String) : State :=
  { s with
    writer := { s.writer with header := s.writer.header.Set key value }
    trace := s.trace ++ [Effect.HeaderSet key value] }

/-- The call `writer.Write(p)`, with the error it returns. -/
def State.Write (s : State) (p : List Nat) : State × Option GoError :=
  ({ s with
      writer := s.writer.Write p
      trace := s.trace ++ [Effect.Write p] },
    (s.writer.transport p).2)

/-- A `go` statement. -/
def State.go (s : State) (e : Effect) : State :=
  { s with trace := s.trace ++ [e] }

/-- The inner loop `for _, value := range values`. -/
def setValues (key : String) : List String → State → State
  | [], s => s
  | value :: values, s => setValues key values (s.HeaderSet key value)

/-- The outer loop `for key, values := range h.Headers`, visiting the entries
in the order of the list.  Another run may visit them in another order: it is
the loop over a permutation of the list. -/
def setHeaders : Header → State → State
  | [], s => s
  | (key, values) :: rest, s => setHeaders rest (setValues key values s)

/-- The state in which `writer.Write(h.Body)` is called: the status and the
headers have been written. -/
def beforeBody (s : State) : State :=
  setHeaders s.h.Headers (s.WriteHeader s.h.Status)

/-- The method `HandleEverything.ServeHTTP`. -/
def ServeHTTP (req : Request) (s : State) : State :=
  -- Write the response code, then the response headers.
  let s1 := beforeBody s
  -- Write the body of the response.
  match s1.Write s1.h.Body with
  | (s2, some err) => s2.go (Effect.GoHandleError err)
  -- Process the request asynchronously.
  | (s2, none) => s2.go (Effect.GoHandleRequests req)

/-! ## `encoding/base64`, `StdEncoding.DecodeString` -/

/-- The table `decodeMap` of `StdEncoding`: the value of an alphabet character. -/
def decodeMap (c : Char) : Option Nat :=
  let n := c.toNat
  if 65 ≤ n ∧ n ≤ 90 then some (n - 65)
  else if 97 ≤ n ∧ n ≤ 122 then some (n - 97 + 26)
  else if 48 ≤ n ∧ n ≤ 57 then some (n - 48 + 52)
  else if n = 43 then some 62
  else if n = 47 then some 63
  else none

/-- The characters `\n` and `\r`, which the decoder skips. -/
def isNewline (c : Char) : Bool := c.toNat == 10 || c.toNat == 13

/-- The padding character `=`. -/
def isPad (c : Char) : Bool := c.toNat == 61

/-- The end of `decodeQuantum`: the collected 6-bit values (two, three or four
of them) are packed into 24 bits and the first `dlen - 1` bytes are kept. -/
def quantumBytes (d : List Nat) : List Nat :=
  let val := d.getD 0 0 <<< 18 ||| d.getD 1 0 <<< 12 ||| d.getD 2 0 <<< 6 ||| d.getD 3 0
  [val >>> 16 % 256, val >>> 8 % 256, val >>> 0 % 256].take (d.length - 1)

/-- The value `CorruptInputError(n)`. -/
def CorruptInputError (n : Nat) : GoError :=
  ⟨"illegal base64 data at input byte " ++ toString n⟩

/-- The loop of `Encoding.Decode` over `decodeQuantum`, for the padded,
non-strict `StdEncoding`.  `si` is the index of the next input byte, `d` the
6-bit values of the quantum being read, `out` the bytes decoded so far. -/
def decodeLoop : List Char → Nat → List Nat → List Nat → Except GoError (List Nat)
  | [], si, d, out =>
    if d.length = 0 then Except.ok out else Except.error (CorruptInputError (si - d.length))
  | c :: cs, si, d, out =>
    match decodeMap c with
    | some v =>
      if d.length = 3 then decodeLoop cs (si + 1) [] (out ++ quantumBytes (d ++ [v]))
      else decodeLoop cs (si + 1) (d ++ [v]) out
    | none =>
      if isNewline c then decodeLoop cs (si + 1) d out
      else if !isPad c then Except.error (CorruptInputError si)
      else if d.length < 2 then Except.error (CorruptInputError si)
      else if d.length = 2 then
        -- "==" is expected, the first "=" is already consumed
        let skipped := (cs.takeWhile isNewline).length
        match cs.dropWhile isNewline with
        | [] => Except.error (CorruptInputError (si + 1 + skipped))
        | c2 :: rest =>
          if !isPad c2 then Except.error (CorruptInputError (si + 1 + skipped - 1))
          else if rest.all isNewline then Except.ok (out ++ quantumBytes d)
          else Except.error
            (CorruptInputError (si + 1 + skipped + 1 + (rest.takeWhile isNewline).length))
      else
        if cs.all isNewline then Except.ok (out ++ quantumBytes d)
        else Except.error (CorruptInputError (si + 1 + (cs.takeWhile isNewline).length))

/-- The method `base64.StdEncoding.DecodeString`. -/
def DecodeString (s : String) : Except GoError (List Nat) :=
  decodeLoop s.toList 0 [] []

/-- The alphabet of standard base64 (RFC 4648, table 1): `A`-`Z`, `a`-`z`,
`0`-`9`, `+` and `/`. -/
def isAlphabet (c : Char) : Bool :=
  let n := c.toNat
  (65 ≤ n && n ≤ 90) || (97 ≤ n && n ≤ 122) || (48 ≤ n && n ≤ 57) || n == 43 || n == 47

/-- Padded base64 text (RFC 4648, section 4): groups of four alphabet
characters, of which the last may end in one or two padding characters. -/
def wellFormed : List Char → Bool
  | [] => true
  | a :: b :: c :: d :: rest =>
    isAlphabet a && isAlphabet b &&
      (if rest.isEmpty then
        (isAlphabet c && (isAlphabet d || isPad d)) || (isPad c && isPad d)
      else isAlphabet c && isAlphabet d && wellFormed rest)
  | _ => false

/-- Valid standard base64, as the documentation of `encoding/base64` has it:
padded base64 text in which `\r` and `\n` may stand anywhere and are ignored. -/
def validStdBase64 (s : String) : Bool :=
  wellFormed (s.toList.filter (fun c => !isNewline c))

/-! ## `main` -/

/-- The constant `WhitePixelB64`. -/
def WhitePixelB64 : String :=
  "iVBORw0KGgoAAAANSUhEUgAAAAEAAAABAQMAAAAl21bKAAAAA1BMVEUAAACnej3aAAAAAXRSTlMAQObYZgAAAApJREFUCNdjYAAAAAIAAeIhvDMAAAAASUVORK5CYII="

/-- The line `logger.Printf` writes for an already formatted text, with a
logger of empty prefix and no flags: a newline is added unless the text ends
in one. -/
def Printf (s : String) : String :=
  match s.toList.getLast? with
  | some c => if c.toNat = 10 then s else s ++ "\n"
  | none => s ++ "\n"

/-- The closure `errorHandler` of `main`. -/
def errorHandler (err : GoError) : List String :=
  [Printf ("An error happened asynchronously.\nError: " ++ err.text ++ "\n")]

/-- The closure `requestHandler` of `main`. -/
def requestHandler (req : Request) : List String :=
  [Printf ("URL requested: " ++ req.URL.String),
   Printf ("  RemoteAddr: " ++ req.RemoteAddr),
   Printf ("  ForwardedFor: " ++ req.Header.Get "X-Forwarded-For")]

/-- The map `headers` of `main`. -/
def headers : Header := [("Content-Type", ["image/png"])]

/-- What `main` does to the outside.  `Fatalf` prints the line and calls
`os.Exit(1)`: nothing follows it. -/
inductive StartupEffect where
  | Fatalf (line : String)
  | ListenAndServe (addr : String) (handler : HandleEverything)

/-- The function `main`, with the payload as an argument.  `serve` is what
`http.ListenAndServe` does: `none` when it serves for ever, `some err` when it
returns (it never returns a nil error). -/
def mainWith (payload : String) (serve : Option GoError) : List StartupEffect :=
  let handler : HandleEverything :=
    { Body := []
      HandleError := errorHandler
      Headers := headers
      HandleRequests := requestHandler
      Status := 200 }
  -- Create the response body as a byte slice.
  match DecodeString payload with
  | Except.error err =>
    [StartupEffect.Fatalf (Printf ("Failed to decode response body.\nError: " ++ err.text))]
  | Except.ok body =>
    -- Start the service.
    StartupEffect.ListenAndServe ":8080" { handler with Body := body } ::
      match serve with
      | some err => [StartupEffect.Fatalf (Printf ("Failed to serve.\nError: " ++ err.text))]
      | none => []

/-- The function `main`. -/
def main (serve : Option GoError) : List StartupEffect :=
  mainWith WhitePixelB64 serve

/-- The handler `main` passes to `http.ListenAndServe`, if it gets there. -/
def mainHandler : Option HandleEverything :=
  match main none with
  | StartupEffect.ListenAndServe _ handler :: _ => some handler
  | _ => none

/-! ## The PNG format, as far as the pixel constant needs it

Signature, chunk layout and CRC, `IHDR`, `PLTE`, `tRNS`, and the zlib stream of
`IDAT`.  The inflater reads blocks compressed with the fixed Huffman code and
made of literals only; anything else is refused with `none`. -/

/-- The eight bytes every PNG file starts with. -/
def pngSignature : List Nat := [137, 80, 78, 71, 13, 10, 26, 10]

/-- A big-endian 32-bit number, from the first four bytes of `b`. -/
def be32 (b : List Nat) : Nat :=
  b.getD 0 0 <<< 24 ||| b.getD 1 0 <<< 16 ||| b.getD 2 0 <<< 8 ||| b.getD 3 0

/-- One bit step of the CRC of the PNG specification. -/
def crcShift (c : Nat) : Nat :=
  if c % 2 = 1 then 0xedb88320 ^^^ (c >>> 1) else c >>> 1

/-- The CRC-32 of the PNG specification. -/
def crc32 (bytes : List Nat) : Nat :=
  bytes.foldl (fun c b => Nat.iterate crcShift 8 (c ^^^ b)) 0xffffffff ^^^ 0xffffffff

/-- A PNG chunk: its four-letter type and its data. -/
structure Chunk where
  name : List Nat
  data : List Nat
deriving DecidableEq, Repr

/-- The chunks of a file body: length, type, data, CRC, repeated to the end.
A chunk whose CRC does not match is refused. -/
def parseChunks : Nat → List Nat → Option (List Chunk)
  | 0, _ => none
  | fuel + 1, bytes =>
    if bytes.length = 0 then some []
    else
      let len := be32 bytes
      if bytes.length < 12 + len then none
      else
        let name := (bytes.drop 4).take 4
        let data := (bytes.drop 8).take len
        if crc32 (name ++ data) = be32 (bytes.drop (8 + len)) then
          (parseChunks fuel (bytes.drop (12 + len))).map (fun cs => ⟨name, data⟩ :: cs)
        else none

/-- The data of the first chunk of the given type. -/
def chunkData (cs : List Chunk) (name : List Nat) : Option (List Nat) :=
  (cs.find? (fun c => c.name = name)).map (fun c => c.data)

/-- The bits of a byte, least significant first, as deflate reads them. -/
def byteBits (b : Nat) : List Bool :=
  (List.range 8).map (fun i => b.testBit i)

/-- A Huffman code, read most significant bit first. -/
def codeValue (bits : List Bool) : Nat :=
  bits.foldl (fun acc b => 2 * acc + b.toNat) 0

/-- The next symbol of the fixed Huffman code of RFC 1951, section 3.2.6. -/
def fixedSymbol (bits : List Bool) : Option (Nat × List Bool) :=
  let v7 := codeValue (bits.take 7)
  let v8 := codeValue (bits.take 8)
  let v9 := codeValue (bits.take 9)
  if bits.length < 7 then none
  else if v7 ≤ 23 then some (256 + v7, bits.drop 7)
  else if bits.length < 8 then none
  else if 48 ≤ v8 ∧ v8 ≤ 191 then some (v8 - 48, bits.drop 8)
  else if 192 ≤ v8 ∧ v8 ≤ 199 then some (280 + (v8 - 192), bits.drop 8)
  else if bits.length < 9 then none
  else some (144 + (v9 - 400), bits.drop 9)

/-- The symbols of one fixed-code block, up to its end-of-block symbol. -/
def inflateBlock : Nat → List Bool → List Nat → Option (List Nat × List Bool)
  | 0, _, _ => none
  | fuel + 1, bits, out =>
    match fixedSymbol bits with
    | none => none
    | some (sym, rest) =>
      if sym < 256 then inflateBlock fuel rest (out ++ [sym])
      else if sym = 256 then some (out, rest)
      else none

/-- The blocks of a deflate stream: `BFINAL`, then `BTYPE` (which has to be 1,
the fixed code), then the block. -/
def inflate : Nat → List Bool → List Nat → Option (List Nat)
  | fuel + 1, bfinal :: b0 :: b1 :: bits, out =>
    if b0 && !b1 then
      match inflateBlock bits.length bits out with
      | none => none
      | some (out1, rest) => if bfinal then some out1 else inflate fuel rest out1
    else none
  | _, _, _ => none

/-- The Adler-32 checksum of RFC 1950. -/
def adler32 (bytes : List Nat) : Nat :=
  let ab := bytes.foldl
    (fun (ab : Nat × Nat) x => ((ab.1 + x) % 65521, (ab.2 + (ab.1 + x) % 65521) % 65521)) (1, 0)
  ab.2 <<< 16 ||| ab.1

/-- A zlib stream (RFC 1950): two header bytes (method 8, window size at most
7, check bits, no preset dictionary), deflate data, Adler-32. -/
def zlibDecompress (z : List Nat) : Option (List Nat) :=
  let cmf := z.getD 0 0
  let flg := z.getD 1 0
  if z.length < 6 ∨ cmf % 16 ≠ 8 ∨ 7 < cmf / 16 ∨ (cmf * 256 + flg) % 31 ≠ 0 ∨ flg.testBit 5 then
    none
  else
    let body := (z.drop 2).take (z.length - 6)
    match inflate body.length (body.flatMap byteBits) [] with
    | none => none
    | some raw => if adler32 raw = be32 (z.drop (z.length - 4)) then some raw else none

/-- A colour with its alpha, each channel from 0 to 255. -/
structure Colour where
  r : Nat
  g : Nat
  b : Nat
  a : Nat
deriving DecidableEq, Repr

/-- An opaque white pixel. -/
def white : Colour := ⟨255, 255, 255, 255⟩

/-- What a decoded indexed-colour PNG holds. -/
structure PNG where
  width : Nat
  height : Nat
  bitDepth : Nat
  colourType : Nat
  palette : List Nat
  alpha : List Nat
  raw : List Nat
deriving DecidableEq, Repr

/-- A PNG file read: the signature, `IHDR` first and `IEND` last, colour type 3
(each pixel is an index into `PLTE`), no interlacing, and the scanlines
inflated from `IDAT`. -/
def readPNG (file : List Nat) : Option PNG :=
  if file.take 8 ≠ pngSignature then none
  else
    match parseChunks file.length (file.drop 8) with
    | none => none
    | some cs =>
      match cs.head?, cs.getLast?, chunkData cs [80, 76, 84, 69], chunkData cs [73, 68, 65, 84] with
      | some hd, some tl, some plte, some idat =>
        if hd.name ≠ [73, 72, 68, 82] ∨ hd.data.length ≠ 13 ∨ tl.name ≠ [73, 69, 78, 68] then none
        else if hd.data.drop 9 ≠ [3, 0, 0, 0] then none
        else
          (zlibDecompress idat).map (fun raw =>
            { width := be32 hd.data
              height := be32 (hd.data.drop 4)
              bitDepth := hd.data.getD 8 0
              colourType := hd.data.getD 9 0
              palette := plte
              alpha := (chunkData cs [116, 82, 78, 83]).getD []
              raw := raw })
      | _, _, _, _ => none

/-- The colour of the pixel in column `x` of row `y`: its palette index is read
from the scanline (filter type 0), the colour from `PLTE` and the alpha from
`tRNS` (255 when `tRNS` has no entry for the index). -/
def PNG.pixel (p : PNG) (x y : Nat) : Option Colour :=
  let stride := 1 + (p.width * p.bitDepth + 7) / 8
  let row := (p.raw.drop (y * stride)).take stride
  if x < p.width ∧ y < p.height ∧ row.length = stride ∧ row.head? = some 0 then
    let byte := row.getD (1 + x * p.bitDepth / 8) 0
    let idx := (byte >>> (8 - p.bitDepth - x * p.bitDepth % 8)) % 2 ^ p.bitDepth
    if 3 * idx + 2 < p.palette.length then
      some ⟨p.palette.getD (3 * idx) 0, p.palette.getD (3 * idx + 1) 0,
        p.palette.getD (3 * idx + 2) 0, p.alpha.getD idx 255⟩
    else none
  else none

/-- The PNG that `WhitePixelB64` decodes to. -/
def whitePixelPNG : Option PNG :=
  match DecodeString WhitePixelB64 with
  | Except.ok file => readPNG file
  | Except.error _ => none

/-! ## Observations on what `ServeHTTP` did -/

/-- The status codes passed to `WriteHeader`, in order. -/
def statusCodes (t : List Effect) : List Int :=
  t.filterMap (fun e => match e with
    | Effect.WriteHeader c => some c
    | _ => none)

/-- The byte sequences passed to `Write`, in order. -/
def bodyWrites (t : List Effect) : List (List Nat) :=
  t.filterMap (fun e => match e with
    | Effect.Write p => some p
    | _ => none)

/-- The errors with which `HandleError` was dispatched, in order. -/
def errorDispatches (t : List Effect) : List GoError :=
  t.filterMap (fun e => match e with
    | Effect.GoHandleError err => some err
    | _ => none)

/-- The requests with which `HandleRequests` was dispatched, in order. -/
def requestDispatches (t : List Effect) : List Request :=
  t.filterMap (fun e => match e with
    | Effect.GoHandleRequests req => some req
    | _ => none)

/-- One `Header().Set` call for every configured value, key by key and, under a
key, value by value. -/
def headerCalls (hs : Header) : List Effect :=
  hs.flatMap (fun e => e.2.map (Effect.HeaderSet e.1))

/-- What one run of `ServeHTTP` adds to the trace. -/
def calls (req : Request) (s : State) : List Effect :=
  (ServeHTTP req s).trace.drop s.trace.length

/-- What the goroutine started by a trace entry prints. -/
def goroutineOutput (h : HandleEverything) : Effect → List String
  | Effect.GoHandleError err => h.HandleError err
  | Effect.GoHandleRequests req => h.HandleRequests req
  | _ => []

/-! ## Concrete configurations -/

/-- The 95 bytes of the file that `WhitePixelB64` encodes. -/
def whitePixelBytes : List Nat :=
  [137, 80, 78, 71, 13, 10, 26, 10, 0, 0, 0, 13, 73, 72, 68, 82, 0, 0, 0, 1, 0, 0, 0, 1,
   1, 3, 0, 0, 0, 37, 219, 86, 202, 0, 0, 0, 3, 80, 76, 84, 69, 0, 0, 0, 167, 122, 61,
   218, 0, 0, 0, 1, 116, 82, 78, 83, 0, 64, 230, 216, 102, 0, 0, 0, 10, 73, 68, 65, 84,
   8, 215, 99, 96, 0, 0, 0, 2, 0, 1, 226, 33, 188, 51, 0, 0, 0, 0, 73, 69, 78, 68, 174,
   66, 96, 130]

/-- The handler `main` has built when it calls `http.ListenAndServe`. -/
def pixelHandler : HandleEverything :=
  { Body := whitePixelBytes
    HandleError := errorHandler
    Headers := headers
    HandleRequests := requestHandler
    Status := 200 }

/-- A handler configured with two values under one header name. -/
def twoCookies : HandleEverything :=
  { Body := [1, 2]
    HandleError := errorHandler
    Headers := [("Set-Cookie", ["a=1", "b=2"])]
    HandleRequests := requestHandler
    Status := 200 }

/-- A writer with an empty header map whose `Write` takes every byte. -/
def goodWriter : ResponseWriter :=
  serverWriter (fun p => (p.length, none))

/-- A writer with an empty header map whose `Write` fails after one byte. -/
def brokenWriter : ResponseWriter :=
  serverWriter (fun _ => (1, some ⟨"broken pipe"⟩))

/-- A request with a forwarded-for header. -/
def sampleRequest : Request :=
  { Method := "GET"
    URL := ⟨"/pixel.png?id=7"⟩
    Header := [("X-Forwarded-For", ["203.0.113.9"])]
    Body := []
    RemoteAddr := "198.51.100.4:51234" }

/-! ## Lemmas on the two loops -/

theorem ResponseWriter.WriteHeader_transport (w : ResponseWriter) (code : Int) :
    (w.WriteHeader code).transport = w.transport := by
  unfold ResponseWriter.WriteHeader
  cases w.committed <;> rfl

theorem ResponseWriter.Write_header (w : ResponseWriter) (p : List Nat) :
    (w.Write p).header = w.header := by
  unfold ResponseWriter.Write
  cases h : (w.WriteHeader 200).committed with
  | none => rfl
  | some c => rfl

theorem ResponseWriter.Write_transport (w : ResponseWriter) (p : List Nat) :
    (w.Write p).transport = w.transport := by
  unfold ResponseWriter.Write
  cases h : (w.WriteHeader 200).committed with
  | none => rfl
  | some c => rfl

theorem setValues_trace (key : String) (values : List String) (s : State) :
    (setValues key values s).trace = s.trace ++ values.map (Effect.HeaderSet key) := by
  induction values generalizing s with
  | nil => simp [setValues]
  | cons v vs ih => simp [setValues, ih, State.HeaderSet]

theorem setValues_h (key : String) (values : List String) (s : State) :
    (setValues key values s).h = s.h := by
  induction values generalizing s with
  | nil => rfl
  | cons v vs ih => simp [setValues, ih, State.HeaderSet]

theorem setValues_transport (key : String) (values : List String) (s : State) :
    (setValues key values s).writer.transport = s.writer.transport := by
  induction values generalizing s with
  | nil => rfl
  | cons v vs ih => simp [setValues, ih, State.HeaderSet]

theorem setHeaders_trace (hs : Header) (s : State) :
    (setHeaders hs s).trace = s.trace ++ headerCalls hs := by
  induction hs generalizing s with
  | nil => simp [setHeaders, headerCalls]
  | cons e rest ih =>
    obtain ⟨key, values⟩ := e
    simp [setHeaders, ih, setValues_trace, headerCalls]

theorem setHeaders_h (hs : Header) (s : State) : (setHeaders hs s).h = s.h := by
  induction hs generalizing s with
  | nil => rfl
  | cons e rest ih =>
    obtain ⟨key, values⟩ := e
    simp [setHeaders, ih, setValues_h]

theorem setHeaders_transport (hs : Header) (s : State) :
    (setHeaders hs s).writer.transport = s.writer.transport := by
  induction hs generalizing s with
  | nil => rfl
  | cons e rest ih =>
    obtain ⟨key, values⟩ := e
    simp [setHeaders, ih, setValues_transport]

theorem beforeBody_h (s : State) : (beforeBody s).h = s.h := by
  simp [beforeBody, setHeaders_h, State.WriteHeader]

theorem beforeBody_transport (s : State) :
    (beforeBody s).writer.transport = s.writer.transport := by
  simp [beforeBody, setHeaders_transport, State.WriteHeader,
    ResponseWriter.WriteHeader_transport]

theorem setValues_committed (key : String) (values : List String) (s : State) :
    (setValues key values s).writer.committed = s.writer.committed := by
  induction values generalizing s with
  | nil => rfl
  | cons v vs ih => simp [setValues, ih, State.HeaderSet]

theorem setHeaders_committed (hs : Header) (s : State) :
    (setHeaders hs s).writer.committed = s.writer.committed := by
  induction hs generalizing s with
  | nil => rfl
  | cons e rest ih =>
    obtain ⟨key, values⟩ := e
    simp [setHeaders, ih, setValues_committed]

/-- The header loop comes after `WriteHeader`: what is committed when the body
is written is what `WriteHeader` committed. -/
theorem beforeBody_committed (s : State) :
    (beforeBody s).writer.committed = (s.writer.WriteHeader s.h.Status).committed := by
  simp [beforeBody, setHeaders_committed, State.WriteHeader]

theorem beforeBody_trace (s : State) :
    (beforeBody s).trace
      = s.trace ++ (Effect.WriteHeader s.h.Status :: headerCalls s.h.Headers) := by
  simp [beforeBody, setHeaders_trace, State.WriteHeader]

/-- The trace of a run whose body write fails. -/
theorem calls_of_error (req : Request) (s : State) (n : Nat) (err : GoError)
    (hw : s.writer.transport s.h.Body = (n, some err)) :
    calls req s = Effect.WriteHeader s.h.Status :: headerCalls s.h.Headers
      ++ [Effect.Write s.h.Body, Effect.GoHandleError err] := by
  simp [calls, ServeHTTP, State.Write, State.go, beforeBody_h, beforeBody_transport,
    beforeBody_trace, hw]

/-- The trace of a run whose body write succeeds. -/
theorem calls_of_ok (req : Request) (s : State) (n : Nat)
    (hw : s.writer.transport s.h.Body = (n, none)) :
    calls req s = Effect.WriteHeader s.h.Status :: headerCalls s.h.Headers
      ++ [Effect.Write s.h.Body, Effect.GoHandleRequests req] := by
  simp [calls, ServeHTTP, State.Write, State.go, beforeBody_h, beforeBody_transport,
    beforeBody_trace, hw]

/-- The trace of a run is one of the two above. -/
theorem calls_cases (req : Request) (s : State) :
    (∃ err, calls req s = Effect.WriteHeader s.h.Status :: headerCalls s.h.Headers
        ++ [Effect.Write s.h.Body, Effect.GoHandleError err]) ∨
    calls req s = Effect.WriteHeader s.h.Status :: headerCalls s.h.Headers
        ++ [Effect.Write s.h.Body, Effect.GoHandleRequests req] := by
  rcases hw : s.writer.transport s.h.Body with ⟨n, _ | err⟩
  · exact Or.inr (calls_of_ok req s n hw)
  · exact Or.inl ⟨err, calls_of_error req s n err hw⟩

theorem ServeHTTP_writer (req : Request) (s : State) :
    (ServeHTTP req s).writer = (beforeBody s).writer.Write s.h.Body := by
  cases hw : ((beforeBody s).writer.transport (beforeBody s).h.Body).2 <;>
    simp only [ServeHTTP, State.Write, hw, State.go] <;> rw [beforeBody_h]

theorem ServeHTTP_header (req : Request) (s : State) :
    (ServeHTTP req s).writer.header = (beforeBody s).writer.header := by
  rw [ServeHTTP_writer, ResponseWriter.Write_header]

/-- A projection of the trace that ignores `Header().Set` sees nothing in the
header loop. -/
theorem filterMap_headerCalls {α : Type} (f : Effect → Option α)
    (hf : ∀ k v, f (Effect.HeaderSet k v) = none) (hs : Header) :
    (headerCalls hs).filterMap f = [] := by
  rw [List.filterMap_eq_nil_iff]
  intro e he
  simp only [headerCalls, List.mem_flatMap, List.mem_map] at he
  obtain ⟨entry, -, v, -, rfl⟩ := he
  exact hf _ _

theorem statusCodes_headerCalls (hs : Header) : statusCodes (headerCalls hs) = [] :=
  filterMap_headerCalls _ (fun _ _ => rfl) hs

theorem bodyWrites_headerCalls (hs : Header) : bodyWrites (headerCalls hs) = [] :=
  filterMap_headerCalls _ (fun _ _ => rfl) hs

theorem errorDispatches_headerCalls (hs : Header) : errorDispatches (headerCalls hs) = [] :=
  filterMap_headerCalls _ (fun _ _ => rfl) hs

theorem requestDispatches_headerCalls (hs : Header) :
    requestDispatches (headerCalls hs) = [] :=
  filterMap_headerCalls _ (fun _ _ => rfl) hs

theorem statusCodes_run (st : Int) (hs : Header) (p : List Nat) (e : Effect)
    (he : ∀ c, e ≠ Effect.WriteHeader c) :
    statusCodes (Effect.WriteHeader st :: headerCalls hs ++ [Effect.Write p, e]) = [st] := by
  have h := statusCodes_headerCalls hs
  cases e <;> simp_all [statusCodes, List.filterMap_append, List.filterMap_cons]

theorem bodyWrites_run (st : Int) (hs : Header) (p : List Nat) (e : Effect)
    (he : ∀ q, e ≠ Effect.Write q) :
    bodyWrites (Effect.WriteHeader st :: headerCalls hs ++ [Effect.Write p, e]) = [p] := by
  have h := bodyWrites_headerCalls hs
  cases e <;> simp_all [bodyWrites, List.filterMap_append, List.filterMap_cons]

theorem statusCodes_calls (req : Request) (s : State) :
    statusCodes (calls req s) = [s.h.Status] := by
  rcases calls_cases req s with ⟨err, h⟩ | h <;> rw [h] <;>
    exact statusCodes_run _ _ _ _ (by simp)

theorem bodyWrites_calls (req : Request) (s : State) :
    bodyWrites (calls req s) = [s.h.Body] := by
  rcases calls_cases req s with ⟨err, h⟩ | h <;> rw [h] <;>
    exact bodyWrites_run _ _ _ _ (by simp)

theorem dispatches_of_error (req : Request) (s : State) (n : Nat) (err : GoError)
    (hw : s.writer.transport s.h.Body = (n, some err)) :
    errorDispatches (calls req s) = [err] ∧ requestDispatches (calls req s) = [] := by
  have he := errorDispatches_headerCalls s.h.Headers
  have hr := requestDispatches_headerCalls s.h.Headers
  simp only [errorDispatches, requestDispatches] at he hr
  rw [calls_of_error req s n err hw]
  simp [errorDispatches, requestDispatches, List.filterMap_append, List.filterMap_cons, he, hr]

theorem dispatches_of_ok (req : Request) (s : State) (n : Nat)
    (hw : s.writer.transport s.h.Body = (n, none)) :
    errorDispatches (calls req s) = [] ∧ requestDispatches (calls req s) = [req] := by
  have he := errorDispatches_headerCalls s.h.Headers
  have hr := requestDispatches_headerCalls s.h.Headers
  simp only [errorDispatches, requestDispatches] at he hr
  rw [calls_of_ok req s n hw]
  simp [errorDispatches, requestDispatches, List.filterMap_append, List.filterMap_cons, he, hr]

theorem ServeHTTP_trace (req : Request) (s : State) :
    (ServeHTTP req s).trace = s.trace ++ calls req s := by
  have h : ∃ e, (ServeHTTP req s).trace = s.trace ++
      (Effect.WriteHeader s.h.Status :: headerCalls s.h.Headers ++ [Effect.Write s.h.Body, e]) := by
    cases hw : ((beforeBody s).writer.transport (beforeBody s).h.Body).2 with
    | none =>
      simp only [ServeHTTP, State.Write, hw, State.go]
      simp only [beforeBody_trace, beforeBody_h]
      exact ⟨Effect.GoHandleRequests req, by simp⟩
    | some err =>
      simp only [ServeHTTP, State.Write, hw, State.go]
      simp only [beforeBody_trace, beforeBody_h]
      exact ⟨Effect.GoHandleError err, by simp⟩
  obtain ⟨e, he⟩ := h
  simp [calls, he]

/-! ## The header map -/

theorem Header.lookup_Set_self (m : Header) (key value : String) :
    (m.Set key value).lookup (CanonicalMIMEHeaderKey key) = some [value] := by
  simp [Header.Set, Header.lookup, List.lookup]

theorem Header.lookup_filter_ne (m : Header) (k k2 : String) (hne : k2 ≠ k) :
    Header.lookup (m.filter (fun e => e.1 != k2)) k = Header.lookup m k := by
  induction m with
  | nil => rfl
  | cons e rest ih =>
    obtain ⟨a, vs⟩ := e
    simp only [Header.lookup] at ih ⊢
    by_cases ha : a = k2
    · subst ha
      have hk : (k == a) = false := by simpa using fun h => hne h.symm
      simp [List.filter, List.lookup, hk, ih]
    · have hf : (a != k2) = true := by simpa using ha
      simp only [List.filter, hf, List.lookup]
      cases hk : k == a <;> simp [ih]

theorem Header.lookup_Set_other (m : Header) (key value k : String)
    (hne : CanonicalMIMEHeaderKey key ≠ k) :
    (m.Set key value).lookup k = m.lookup k := by
  have hk : (k == CanonicalMIMEHeaderKey key) = false := by simpa using fun h => hne h.symm
  have h := Header.lookup_filter_ne m k _ hne
  simp only [Header.lookup] at h ⊢
  simp [Header.Set, List.lookup, hk, h]

theorem Header.Set_Set (m : Header) (key v1 v2 : String) :
    (m.Set key v1).Set key v2 = m.Set key v2 := by
  simp [Header.Set, List.filter_filter]

theorem setValues_header (key : String) (values : List String) (s : State)
    (hne : values ≠ []) :
    (setValues key values s).writer.header
      = s.writer.header.Set key (values.getLast hne) := by
  induction values generalizing s with
  | nil => exact absurd rfl hne
  | cons v vs ih =>
    cases vs with
    | nil => simp [setValues, State.HeaderSet]
    | cons v2 vs2 =>
      have h := ih (s.HeaderSet key v) (by simp)
      simp only [setValues] at h ⊢
      rw [h]
      simp [State.HeaderSet, Header.Set_Set]

theorem setValues_lookup_other (key : String) (values : List String) (s : State) (k : String)
    (hne : CanonicalMIMEHeaderKey key ≠ k) :
    (setValues key values s).writer.header.lookup k = s.writer.header.lookup k := by
  induction values generalizing s with
  | nil => rfl
  | cons v vs ih =>
    simp only [setValues]
    rw [ih]
    simp [State.HeaderSet, Header.lookup_Set_other _ _ _ _ hne]

theorem setHeaders_lookup_other (hs : Header) (s : State) (k : String)
    (hne : ∀ e ∈ hs, CanonicalMIMEHeaderKey e.1 ≠ k) :
    (setHeaders hs s).writer.header.lookup k = s.writer.header.lookup k := by
  induction hs generalizing s with
  | nil => rfl
  | cons e rest ih =>
    obtain ⟨key, values⟩ := e
    simp only [setHeaders]
    rw [ih _ (fun e he => hne e (List.mem_cons_of_mem _ he))]
    exact setValues_lookup_other key values s k (hne (key, values) (List.mem_cons_self _ _))

/-- What the header loop leaves in the map: when no two configured names have
the same canonical form, a configured name with at least one value ends up,
under its canonical form, with its last value alone. -/
theorem setHeaders_last_value (hs : Header) (s : State) (key : String) (values : List String)
    (hd : hs.Pairwise (fun a b => CanonicalMIMEHeaderKey a.1 ≠ CanonicalMIMEHeaderKey b.1))
    (hm : (key, values) ∈ hs) (hne : values ≠ []) :
    (setHeaders hs s).writer.header.lookup (CanonicalMIMEHeaderKey key)
      = some [values.getLast hne] := by
  induction hs generalizing s with
  | nil => simp at hm
  | cons e rest ih =>
    obtain ⟨k0, vs0⟩ := e
    rw [List.pairwise_cons] at hd
    simp only [setHeaders]
    rcases List.mem_cons.mp hm with heq | hin
    · obtain ⟨rfl, rfl⟩ := Prod.mk.inj heq
      rw [setHeaders_lookup_other rest _ _ (fun e he => (hd.1 e he).symm),
        setValues_header key values s hne]
      exact Header.lookup_Set_self _ _ _
    · exact ih _ hd.2 hin

/-- The header map after `ServeHTTP`, in general: under the conditions of
`setHeaders_last_value`, only the last configured value of a name is kept. -/
theorem ServeHTTP_header_last_value (req : Request) (s : State) (key : String)
    (values : List String)
    (hd : s.h.Headers.Pairwise
      (fun a b => CanonicalMIMEHeaderKey a.1 ≠ CanonicalMIMEHeaderKey b.1))
    (hm : (key, values) ∈ s.h.Headers) (hne : values ≠ []) :
    (ServeHTTP req s).writer.header.lookup (CanonicalMIMEHeaderKey key)
      = some [values.getLast hne] := by
  rw [ServeHTTP_header]
  exact setHeaders_last_value _ _ key values hd hm hne

/-! ## The committed response -/

theorem ResponseWriter.WriteHeader_committed (w : ResponseWriter) (code : Int) :
    (w.WriteHeader code).committed
      = some (match w.committed with
        | some c => c
        | none => (code, w.header)) := by
  unfold ResponseWriter.WriteHeader
  cases h : w.committed <;> simp [h]

theorem ResponseWriter.Write_committed (w : ResponseWriter) (p : List Nat)
    (c : Int × Header) (hc : w.committed = some c) :
    (w.Write p).committed = some (c.1, sniffContentType c.1 c.2 p) := by
  unfold ResponseWriter.Write ResponseWriter.WriteHeader
  simp [hc]

/-- The response committed by a run: the status and header `WriteHeader`
committed, the header gone through the sniffing step of the body write.  The
configured headers have no part in it. -/
theorem ServeHTTP_committed (req : Request) (s : State) :
    (ServeHTTP req s).writer.committed
      = some ((match s.writer.committed with
          | some c => c
          | none => (s.h.Status, s.writer.header)).1,
        sniffContentType
          (match s.writer.committed with
            | some c => c
            | none => (s.h.Status, s.writer.header)).1
          (match s.writer.committed with
            | some c => c
            | none => (s.h.Status, s.writer.header)).2 s.h.Body) := by
  rw [ServeHTTP_writer]
  exact ResponseWriter.Write_committed _ _ _
    ((beforeBody_committed s).trans (ResponseWriter.WriteHeader_committed _ _))

/-- On a writer that has committed nothing, the response header is committed as
the header map stood before the header loop. -/
theorem beforeBody_committed_fresh (s : State) (hf : s.writer.committed = none) :
    (beforeBody s).writer.committed = some (s.h.Status, s.writer.header) := by
  rw [beforeBody_committed, ResponseWriter.WriteHeader_committed, hf]

/-! ## Two iteration orders of one header map -/

theorem decodeMap_eq_none (c : Char) : decodeMap c = none ↔ isAlphabet c = false := by
  simp only [decodeMap, isAlphabet]
  split_ifs <;> simp <;> omega

theorem isAlphabet_A : isAlphabet 'A' = true := by decide

theorem isAlphabet_not_pad (c : Char) (h : isAlphabet c = true) : isPad c = false := by
  simp only [isAlphabet, isPad] at *
  simp at h ⊢
  omega

theorem isAlphabet_not_newline (c : Char) (h : isAlphabet c = true) : isNewline c = false := by
  simp only [isAlphabet, isNewline] at *
  simp at h ⊢
  omega

theorem filter_dropWhile_newline (cs : List Char) :
    (cs.dropWhile isNewline).filter (fun c => !isNewline c)
      = cs.filter (fun c => !isNewline c) := by
  induction cs with
  | nil => rfl
  | cons c cs ih =>
    cases hc : isNewline c <;> simp [List.dropWhile, List.filter, hc, ih]

theorem filter_newline_eq_nil (cs : List Char) :
    cs.filter (fun c => !isNewline c) = [] ↔ cs.all isNewline = true := by
  simp [List.filter_eq_nil_iff]

theorem wellFormed_four (a b c d : Char) (rest : List Char) :
    wellFormed (a :: b :: c :: d :: rest) =
      (isAlphabet a && isAlphabet b &&
        (if rest.isEmpty then
          (isAlphabet c && (isAlphabet d || isPad d)) || (isPad c && isPad d)
        else isAlphabet c && isAlphabet d && wellFormed rest)) := by
  simp [wellFormed]

theorem wellFormed_short (l : List Char) (h : 0 < l.length ∧ l.length < 4) :
    wellFormed l = false := by
  match l, h with
  | [_], _ => rfl
  | [_, _], _ => rfl
  | [_, _, _], _ => rfl
  | _ :: _ :: _ :: _ :: _, h => simp at h; omega

/-- An alphabet character in one of the first three places of a group counts
as any other. -/
theorem wellFormed_pending (j : Nat) (hj : j < 3) (c : Char) (rest : List Char)
    (hc : isAlphabet c = true) :
    wellFormed (List.replicate j 'A' ++ c :: rest)
      = wellFormed (List.replicate (j + 1) 'A' ++ rest) := by
  have hp := isAlphabet_not_pad c hc
  have hA := isAlphabet_A
  have hpA : isPad 'A' = false := by decide
  match j, hj with
  | 0, _ =>
    match rest with
    | [] => rfl
    | [_] => rfl
    | [_, _] => rfl
    | _ :: _ :: _ :: _ =>
      simp only [List.replicate, List.nil_append, List.cons_append, wellFormed_four, hc, hA]
  | 1, _ =>
    match rest with
    | [] => rfl
    | [_] => rfl
    | _ :: _ :: _ =>
      simp only [List.replicate, List.nil_append, List.cons_append, wellFormed_four, hc, hA]
  | 2, _ =>
    match rest with
    | [] => rfl
    | _ :: _ =>
      simp only [List.replicate, List.nil_append, List.cons_append, wellFormed_four, hc, hA,
        hp, hpA]

/-- The fourth alphabet character closes a group. -/
theorem wellFormed_close (c : Char) (rest : List Char) (hc : isAlphabet c = true) :
    wellFormed ('A' :: 'A' :: 'A' :: c :: rest) = wellFormed rest := by
  rw [wellFormed_four]
  cases rest with
  | nil => simp [isAlphabet_A, hc, wellFormed]
  | cons x xs => simp [isAlphabet_A, hc]

/-- A character that is neither of the alphabet nor padding spoils the text. -/
theorem wellFormed_illegal (j : Nat) (hj : j ≤ 3) (c : Char) (rest : List Char)
    (hc : isAlphabet c = false) (hp : isPad c = false) :
    wellFormed (List.replicate j 'A' ++ c :: rest) = false := by
  match j, hj with
  | 0, _ =>
    match rest with
    | [] => rfl
    | [_] => rfl
    | [_, _] => rfl
    | _ :: _ :: _ :: _ =>
      simp [List.replicate, wellFormed_four, hc]
  | 1, _ =>
    match rest with
    | [] => rfl
    | [_] => rfl
    | _ :: _ :: _ =>
      simp [List.replicate, wellFormed_four, hc]
  | 2, _ =>
    match rest with
    | [] => rfl
    | _ :: _ =>
      simp [List.replicate, wellFormed_four, hc, hp]
  | 3, _ =>
    simp [List.replicate, wellFormed_four, hc, hp]

/-- Padding in the first or second place of a group spoils the text. -/
theorem wellFormed_early_pad (j : Nat) (hj : j < 2) (c : Char) (rest : List Char)
    (hp : isPad c = true) :
    wellFormed (List.replicate j 'A' ++ c :: rest) = false := by
  have hc : isAlphabet c = false := by
    cases h : isAlphabet c
    · rfl
    · rw [isAlphabet_not_pad c h] at hp
      exact absurd hp (by simp)
  match j, hj with
  | 0, _ =>
    match rest with
    | [] => rfl
    | [_] => rfl
    | [_, _] => rfl
    | _ :: _ :: _ :: _ =>
      simp [List.replicate, wellFormed_four, hc]
  | 1, _ =>
    match rest with
    | [] => rfl
    | [_] => rfl
    | _ :: _ :: _ =>
      simp [List.replicate, wellFormed_four, hc]

theorem dropWhile_newline_head (cs : List Char) (c : Char) (rest : List Char)
    (h : cs.dropWhile isNewline = c :: rest) : isNewline c = false := by
  induction cs with
  | nil => simp at h
  | cons x xs ih =>
    cases hx : isNewline x
    · simp [List.dropWhile, hx] at h
      rw [← h.1]
      exact hx
    · simp [List.dropWhile, hx] at h
      exact ih h

/-- The decoding loop ends without error exactly when the characters still to
be read, line breaks apart, complete the group being read into padded base64
text. -/
theorem decodeLoop_toBool (cs : List Char) :
    ∀ (si : Nat) (d out : List Nat), d.length ≤ 3 →
      (decodeLoop cs si d out).toBool
        = wellFormed (List.replicate d.length 'A' ++ cs.filter (fun c => !isNewline c)) := by
  induction cs with
  | nil =>
    intro si d out hd
    simp only [decodeLoop, List.filter_nil, List.append_nil]
    by_cases h0 : d.length = 0
    · simp [h0, Except.toBool, wellFormed]
    · rw [wellFormed_short _ (by simp; omega)]
      simp [h0, Except.toBool]
  | cons c cs ih =>
    intro si d out hd
    simp only [decodeLoop]
    cases hm : decodeMap c with
    | some v =>
      have hc : isAlphabet c = true := by
        cases h : isAlphabet c
        · rw [(decodeMap_eq_none c).mpr h] at hm
          exact absurd hm (by simp)
        · rfl
      have hn := isAlphabet_not_newline c hc
      have hf : (c :: cs).filter (fun c => !isNewline c)
          = c :: cs.filter (fun c => !isNewline c) := by simp [List.filter, hn]
      rw [hf]
      by_cases h3 : d.length = 3
      · simp only [h3, if_true]
        rw [ih _ _ _ (by simp)]
        simp only [List.length_nil, List.replicate, List.nil_append, List.cons_append]
        exact (wellFormed_close c _ hc).symm
      · simp only [h3, if_false]
        rw [ih _ _ _ (by simp; omega), wellFormed_pending _ (by omega) c _ hc]
        simp
    | none =>
      have hc : isAlphabet c = false := (decodeMap_eq_none c).mp hm
      cases hn : isNewline c with
      | true =>
        have hf : (c :: cs).filter (fun c => !isNewline c)
            = cs.filter (fun c => !isNewline c) := by simp [List.filter, hn]
        rw [hf]
        simp only [if_true]
        exact ih _ _ _ hd
      | false =>
        have hf : (c :: cs).filter (fun c => !isNewline c)
            = c :: cs.filter (fun c => !isNewline c) := by simp [List.filter, hn]
        rw [hf]
        cases hp : isPad c with
        | false =>
          rw [wellFormed_illegal _ hd c _ hc hp]
          simp [Except.toBool]
        | true =>
          by_cases h2 : d.length < 2
          · rw [wellFormed_early_pad _ h2 c _ hp]
            simp [h2, Except.toBool]
          · by_cases h2e : d.length = 2
            · simp only [h2e, Bool.false_eq_true, if_false, Bool.not_true, if_true,
                Nat.lt_irrefl]
              rw [← filter_dropWhile_newline cs]
              cases hdw : cs.dropWhile isNewline with
              | nil => simp [Except.toBool, List.replicate, wellFormed]
              | cons c2 rest =>
                have hn2 := dropWhile_newline_head cs c2 rest hdw
                have hf2 : (c2 :: rest).filter (fun c => !isNewline c)
                    = c2 :: rest.filter (fun c => !isNewline c) := by simp [List.filter, hn2]
                rw [hf2]
                simp only [List.replicate, List.nil_append, List.cons_append, wellFormed_four,
                  hc, hp, isAlphabet_A]
                cases hp2 : isPad c2 with
                | false => simp [Except.toBool]
                | true =>
                  by_cases hall : rest.all isNewline = true
                  · have he := (filter_newline_eq_nil rest).mpr hall
                    simp [Except.toBool, hall, he]
                  · have he : rest.filter (fun c => !isNewline c) ≠ [] :=
                      fun h => hall ((filter_newline_eq_nil rest).mp h)
                    simp [Except.toBool, hall, he]
            · have h3 : d.length = 3 := by omega
              simp only [h3, Bool.false_eq_true, if_false, Bool.not_true]
              simp only [List.replicate, List.nil_append, List.cons_append, wellFormed_four,
                hc, hp, isAlphabet_A]
              by_cases hall : cs.all isNewline = true
              · have he := (filter_newline_eq_nil cs).mpr hall
                simp [Except.toBool, hall, he]
              · have he : cs.filter (fun c => !isNewline c) ≠ [] :=
                  fun h => hall ((filter_newline_eq_nil cs).mp h)
                simp [Except.toBool, hall, he]

/-- `DecodeString` returns an error exactly for the payloads that are not valid
standard base64. -/
theorem DecodeString_toBool (s : String) : (DecodeString s).toBool = validStdBase64 s := by
  simp only [DecodeString, validStdBase64]
  rw [decodeLoop_toBool _ _ _ _ (by simp)]
  simp

theorem DecodeString_error_of_invalid (s : String) (h : validStdBase64 s = false) :
    ∃ err, DecodeString s = Except.error err := by
  have ht := DecodeString_toBool s
  rw [h] at ht
  cases hd : DecodeString s with
  | error err => exact ⟨err, rfl⟩
  | ok b => rw [hd] at ht; simp [Except.toBool] at ht

/-! ## The claims -/

/-- Claim C1: whatever the request, the writer state and the outcome of the
write, `ServeHTTP` calls `WriteHeader` once, with `h.Status`, and `Write` once,
with `h.Body`. -/
theorem ServeHTTP_status_and_body (req : Request) (s : State) :
    statusCodes (calls req s) = [s.h.Status] ∧ bodyWrites (calls req s) = [s.h.Body] :=
  ⟨statusCodes_calls req s, bodyWrites_calls req s⟩

/-- Claim C2, at a configuration with two values under one name: `ServeHTTP`
calls `Header().Set` once per configured value, and `Set` replaces: with
`Set-Cookie: a=1, b=2` configured, the header map ends with `b=2` alone. -/
theorem ServeHTTP_twoCookies_keeps_last :
    calls sampleRequest ⟨twoCookies, goodWriter, []⟩
        = [Effect.WriteHeader 200, Effect.HeaderSet "Set-Cookie" "a=1",
           Effect.HeaderSet "Set-Cookie" "b=2", Effect.Write [1, 2],
           Effect.GoHandleRequests sampleRequest] ∧
      (ServeHTTP sampleRequest ⟨twoCookies, goodWriter, []⟩).writer.header.lookup "Set-Cookie"
        = some ["b=2"] ∧
      (ServeHTTP sampleRequest ⟨twoCookies, goodWriter, []⟩).writer.header.lookup "Set-Cookie"
        ≠ some ["a=1", "b=2"] := by
  decide

/-- Claim C3: in every run of `ServeHTTP`, whatever the request and the outcome of
the write, the dispatches of `HandleError` and of `HandleRequests` number one
together. -/
theorem ServeHTTP_dispatches_exactly_one (req : Request) (s : State) :
    (errorDispatches (calls req s)).length + (requestDispatches (calls req s)).length = 1 := by
  rcases hw : s.writer.transport s.h.Body with ⟨n, _ | err⟩
  · have h := dispatches_of_ok req s n hw
    simp [h.1, h.2]
  · have h := dispatches_of_error req s n err hw
    simp [h.1, h.2]

/-- Claim C4: when `Write` returns the error `err`, whatever count `n` of bytes
it reports, `HandleError` is dispatched with `err` and `HandleRequests` is not
dispatched; when `Write` returns no error, `HandleRequests` is dispatched (with
the request) and `HandleError` is not. -/
theorem ServeHTTP_routes_write_result (req : Request) (s : State) :
    (∀ n err, s.writer.transport s.h.Body = (n, some err) →
      errorDispatches (calls req s) = [err] ∧ requestDispatches (calls req s) = []) ∧
    (∀ n, s.writer.transport s.h.Body = (n, none) →
      errorDispatches (calls req s) = [] ∧ requestDispatches (calls req s) = [req]) :=
  ⟨fun n err hw => dispatches_of_error req s n err hw, fun n hw => dispatches_of_ok req s n hw⟩

/-- The witness of C4: a write that fails after one byte, and one that succeeds. -/
theorem ServeHTTP_routes_write_result_witness :
    (errorDispatches (calls sampleRequest ⟨twoCookies, brokenWriter, []⟩) = [⟨"broken pipe"⟩] ∧
      requestDispatches (calls sampleRequest ⟨twoCookies, brokenWriter, []⟩) = []) ∧
    (errorDispatches (calls sampleRequest ⟨twoCookies, goodWriter, []⟩) = [] ∧
      requestDispatches (calls sampleRequest ⟨twoCookies, goodWriter, []⟩) = [sampleRequest]) :=
  ⟨(ServeHTTP_routes_write_result sampleRequest ⟨twoCookies, brokenWriter, []⟩).1 1
      ⟨"broken pipe"⟩ rfl,
   (ServeHTTP_routes_write_result sampleRequest ⟨twoCookies, goodWriter, []⟩).2 2 rfl⟩

/-- Claim C5: when the body write succeeds, `HandleRequests` is dispatched with
the request `ServeHTTP` received; with the request handler of `main` as
callback, the started goroutine prints the request's `URL.String()`, its
`RemoteAddr` and its `Header.Get("X-Forwarded-For")`, and that last value is the
first value stored under `X-Forwarded-For`, or the empty string when the header
map has no such entry. -/
theorem ServeHTTP_passes_request (req : Request) (s : State) (n : Nat)
    (hw : s.writer.transport s.h.Body = (n, none))
    (hh : s.h.HandleRequests = requestHandler) :
    requestDispatches (calls req s) = [req] ∧
    (calls req s).flatMap (goroutineOutput s.h)
      = [Printf ("URL requested: " ++ req.URL.String),
         Printf ("  RemoteAddr: " ++ req.RemoteAddr),
         Printf ("  ForwardedFor: " ++ req.Header.Get "X-Forwarded-For")] ∧
    (∀ v vs, req.Header.lookup "X-Forwarded-For" = some (v :: vs) →
      req.Header.Get "X-Forwarded-For" = v) ∧
    (req.Header.lookup "X-Forwarded-For" = none → req.Header.Get "X-Forwarded-For" = "") := by
  have hk : CanonicalMIMEHeaderKey "X-Forwarded-For" = "X-Forwarded-For" := by decide
  refine ⟨(dispatches_of_ok req s n hw).2, ?_, ?_, ?_⟩
  · rw [calls_of_ok req s n hw]
    have hz : (headerCalls s.h.Headers).flatMap (goroutineOutput s.h) = [] := by
      rw [List.flatMap_eq_nil_iff]
      intro e he
      simp only [headerCalls, List.mem_flatMap, List.mem_map] at he
      obtain ⟨entry, -, v, -, rfl⟩ := he
      rfl
    simp [List.flatMap_append, hz, goroutineOutput, hh, requestHandler]
  · intro v vs hl
    simp [Header.Get, hk, hl]
  · intro hl
    simp [Header.Get, hk, hl]

/-- The witness of C5. -/
theorem ServeHTTP_passes_request_witness :
    requestDispatches (calls sampleRequest ⟨twoCookies, goodWriter, []⟩) = [sampleRequest] ∧
    (calls sampleRequest ⟨twoCookies, goodWriter, []⟩).flatMap (goroutineOutput twoCookies)
      = ["URL requested: /pixel.png?id=7\n", "  RemoteAddr: 198.51.100.4:51234\n",
         "  ForwardedFor: 203.0.113.9\n"] := by
  have h := ServeHTTP_passes_request sampleRequest ⟨twoCookies, goodWriter, []⟩ 2 rfl rfl
  refine ⟨h.1, ?_⟩
  rw [h.2.1]
  decide

/-- The bytes `WhitePixelB64` decodes to. -/
theorem DecodeString_WhitePixelB64 :
    DecodeString WhitePixelB64 = Except.ok whitePixelBytes := by
  rfl

theorem mainHandler_eq : mainHandler = some pixelHandler := by
  simp only [mainHandler, main, mainWith, DecodeString_WhitePixelB64]
  rfl

/-- Claim C6: `main` reaches `ListenAndServe`, with a handler whose body is the
decoding of `WhitePixelB64`; for every request and every behaviour of the
transport, on the writer the server hands it, that handler passes 200 to
`WriteHeader` and the decoded bytes to `Write`, and the response the writer has
committed at the end has status 200 and the header `Content-Type` with the
single value `image/png`.  The header is in the response through the sniffing
step of the body write, the body being a PNG file; the `Content-Type` of
`h.Headers` is set in the header map after the response header is committed. -/
theorem mainHandler_response :
    ∃ h body, mainHandler = some h ∧ DecodeString WhitePixelB64 = Except.ok body ∧
      ∀ (req : Request) (transport : List Nat → Nat × Option GoError) (trace : List Effect),
        statusCodes (calls req ⟨h, serverWriter transport, trace⟩) = [200] ∧
        bodyWrites (calls req ⟨h, serverWriter transport, trace⟩) = [body] ∧
        (ServeHTTP req ⟨h, serverWriter transport, trace⟩).writer.committed.map
            (fun c => (c.1, c.2.lookup "Content-Type"))
          = some (200, some ["image/png"]) := by
  refine ⟨pixelHandler, whitePixelBytes, mainHandler_eq, DecodeString_WhitePixelB64, ?_⟩
  intro req transport trace
  refine ⟨statusCodes_calls req _, bodyWrites_calls req _, ?_⟩
  rw [ServeHTTP_committed]
  have hs : sniffContentType 200 [] whitePixelBytes = [("Content-Type", ["image/png"])] := by
    decide
  simp only [serverWriter, pixelHandler, hs]
  rfl

/-- Claim C7: for a payload that is not valid standard base64 the decode step
returns an error, `main` does one thing, the fatal log of that error (which
ends the process), and never calls `ListenAndServe`; and whenever
`ListenAndServe` is called, it is the first thing `main` does to the outside,
the payload has been decoded without error, and the decoded bytes are the
`Body` of the handler it is given. -/
theorem main_decode_failure_is_fatal (payload : String) (serve : Option GoError) :
    (validStdBase64 payload = false →
      ∃ err, DecodeString payload = Except.error err ∧
        mainWith payload serve
          = [StartupEffect.Fatalf
              (Printf ("Failed to decode response body.\nError: " ++ err.text))] ∧
        ∀ addr handler, StartupEffect.ListenAndServe addr handler ∉ mainWith payload serve) ∧
    (∀ addr handler, StartupEffect.ListenAndServe addr handler ∈ mainWith payload serve →
      DecodeString payload = Except.ok handler.Body ∧
      (mainWith payload serve).head? = some (StartupEffect.ListenAndServe addr handler)) := by
  constructor
  · intro hv
    obtain ⟨err, hd⟩ := DecodeString_error_of_invalid payload hv
    exact ⟨err, hd, by simp [mainWith, hd], by simp [mainWith, hd]⟩
  · intro addr handler hm
    cases hd : DecodeString payload with
    | error err => simp [mainWith, hd] at hm
    | ok body =>
      cases serve <;> simp [mainWith, hd] at hm ⊢ <;> obtain ⟨rfl, rfl⟩ := hm <;> simp

/-- The witness of C7: a payload of four characters outside the alphabet, and
the payload of the program. -/
theorem main_decode_failure_is_fatal_witness :
    (validStdBase64 "!!!!" = false ∧
      ∃ err, DecodeString "!!!!" = Except.error err ∧
        mainWith "!!!!" none
          = [StartupEffect.Fatalf
              (Printf ("Failed to decode response body.\nError: " ++ err.text))] ∧
        ∀ addr handler, StartupEffect.ListenAndServe addr handler ∉ mainWith "!!!!" none) ∧
    (DecodeString WhitePixelB64 = Except.ok pixelHandler.Body ∧
      (mainWith WhitePixelB64 none).head?
        = some (StartupEffect.ListenAndServe ":8080" pixelHandler)) := by
  refine ⟨⟨by decide, (main_decode_failure_is_fatal "!!!!" none).1 (by decide)⟩, ?_⟩
  apply (main_decode_failure_is_fatal WhitePixelB64 none).2 ":8080"
  simp only [mainWith, DecodeString_WhitePixelB64]
  exact List.mem_singleton.mpr rfl

/-- The order of what `ServeHTTP` does: `WriteHeader` with the status, then one
`Header().Set` per configured value, then `Write` with the body, then one
dispatch, of `HandleError` or of `HandleRequests`; the header map does not
change after the header loop. -/
theorem ServeHTTP_order (req : Request) (s : State) :
    (ServeHTTP req s).trace = s.trace ++ calls req s ∧
    (∃ d, calls req s = [Effect.WriteHeader s.h.Status] ++ headerCalls s.h.Headers
        ++ [Effect.Write s.h.Body] ++ [d] ∧
      ((∃ err, d = Effect.GoHandleError err) ∨ d = Effect.GoHandleRequests req)) ∧
    (beforeBody s).trace
      = s.trace ++ [Effect.WriteHeader s.h.Status] ++ headerCalls s.h.Headers ∧
    (beforeBody s).writer.header = (ServeHTTP req s).writer.header := by
  refine ⟨ServeHTTP_trace req s, ?_, by simp [beforeBody_trace], by rw [ServeHTTP_header]⟩
  rcases calls_cases req s with ⟨err, h⟩ | h
  · exact ⟨_, by rw [h]; simp, Or.inl ⟨err, rfl⟩⟩
  · exact ⟨_, by rw [h]; simp, Or.inr rfl⟩

/-- Claim C10, evaluated: the calls come in the order the claim gives, but the
configured headers are not in place in the response when the body write
begins.  With `Set-Cookie: a=1, b=2` configured, on the writer of the server,
the response header is committed empty by `WriteHeader`, before any
`Header().Set`; when `Write` is called the header map holds `b=2` alone, and
the response committed at the end of the run has no `Set-Cookie`.  For the
handler of `main` too the response header is committed empty before the body
write. -/
theorem ServeHTTP_headers_not_in_place :
    calls sampleRequest ⟨twoCookies, brokenWriter, []⟩
      = [Effect.WriteHeader 200, Effect.HeaderSet "Set-Cookie" "a=1",
         Effect.HeaderSet "Set-Cookie" "b=2", Effect.Write [1, 2],
         Effect.GoHandleError ⟨"broken pipe"⟩] ∧
    (beforeBody ⟨twoCookies, brokenWriter, []⟩).writer.committed = some (200, []) ∧
    (beforeBody ⟨twoCookies, brokenWriter, []⟩).writer.header = [("Set-Cookie", ["b=2"])] ∧
    ((ServeHTTP sampleRequest ⟨twoCookies, brokenWriter, []⟩).writer.committed.map
      (fun c => c.2.lookup "Set-Cookie")) = some none ∧
    (beforeBody ⟨pixelHandler, goodWriter, []⟩).writer.committed = some (200, []) := by
  decide

/-- Claim C9, evaluated: `WhitePixelB64` is valid base64 and decodes to a PNG
file: it starts with the signature, and `IHDR` gives width 1 and height 1.  The
image is of colour type 3 with a palette of one entry, black, made fully
transparent by `tRNS`; its pixel is that entry and is not white. -/
theorem whitePixel_is_transparent_black :
    ∃ file p, DecodeString WhitePixelB64 = Except.ok file ∧ file.take 8 = pngSignature ∧
      readPNG file = some p ∧ p.width = 1 ∧ p.height = 1 ∧ p.colourType = 3 ∧
      p.palette = [0, 0, 0] ∧ p.alpha = [0] ∧
      p.pixel 0 0 = some ⟨0, 0, 0, 0⟩ ∧ p.pixel 0 0 ≠ some white := by
  refine ⟨_, ⟨1, 1, 1, 3, [0, 0, 0], [0], [0, 0]⟩, DecodeString_WhitePixelB64, by decide,
    by decide, rfl, rfl, rfl, rfl, rfl, by decide, by decide⟩

end Trackingpixel
